import Mathlib

/-!
# Verification of the pdstable decoding and indexing engine

A shallow embedding of the core of `pdstable/__init__.py` (class `PdsTable`)
and the column-type resolution of `PdsColumnInfo` (PDS3) and `Pds4ColumnInfo`
(PDS4, `pdstable/pds4table.py`), together with proofs about the spec's claims.

Modelling conventions:
* The table file has already been read and split into records; each column's
  raw per-row ASCII field (after the caller's `callbacks` and the raw string
  `replacements` pass, both of which act purely on raw strings) is a `String`.
* Python `int(...)` conversion is modelled by `pyInt` (base-10 literals with
  surrounding whitespace), `julian.tai_from_iso` is an external collaborator
  and is modelled by an abstract parameter `tai : String → Option Int`.
* Python runtime errors (`ValueError`, `NameError`, `TypeError`, `KeyError`,
  `IndexError`) are modelled by the `PyError` type; a function that can raise
  returns `Except PyError _`.
* `float` ("REAL") columns are outside the embedding; the claims under study
  only involve integer, time and string columns.
-/

namespace PdsTableModel

/-! ## Python string primitives -/

/-- Whitespace characters recognised by Python's `str.strip()`. -/
def isWsChar (c : Char) : Bool :=
  c == ' ' || c == '\t' || c == '\n' || c == '\r' || c == '\x0b' || c == '\x0c'

/-- `str.strip()` on a character list. -/
def pyStripList (l : List Char) : List Char :=
  ((l.dropWhile isWsChar).reverse.dropWhile isWsChar).reverse

/-- Python `str.strip()`. -/
def pyStrip (s : String) : String :=
  String.mk (pyStripList s.data)

/-- Whether the first list is a prefix of the second (Boolean). -/
def listPrefixEq : List Char → List Char → Bool
  | [], _ => true
  | _ :: _, [] => false
  | a :: as, b :: bs => a == b && listPrefixEq as bs

/-- Whether `needle` occurs as a contiguous sublist of the second list. -/
def listContainsSub (needle : List Char) : List Char → Bool
  | [] => listPrefixEq needle []
  | c :: rest => listPrefixEq needle (c :: rest) || listContainsSub needle rest

/-- Python `needle in hay` for strings. -/
def strContainsSub (hay needle : String) : Bool :=
  listContainsSub needle.data hay.data

/-- Python `s.endswith(suffix)`. -/
def strEndsWith (s suffix : String) : Bool :=
  listPrefixEq suffix.data.reverse s.data.reverse

/-- Python `s.lower()` (ASCII). -/
def pyLower (s : String) : String :=
  String.mk (s.data.map Char.toLower)

/-- Python `s.replace(' ', '_')`. -/
def replaceSpaces (s : String) : String :=
  String.mk (s.data.map (fun c => if c == ' ' then '_' else c))

/-- Decimal digit value of a character, if it is a digit. -/
def digitVal (c : Char) : Option Nat :=
  if c.isDigit then some (c.toNat - '0'.toNat) else none

/-- Accumulate a base-10 numeral. -/
def digitsToNatAux : Nat → List Char → Option Nat
  | acc, [] => some acc
  | acc, c :: rest =>
    match digitVal c with
    | some d => digitsToNatAux (10 * acc + d) rest
    | none => none

/-- Parse a non-empty all-digit list as a natural number. -/
def digitsToNat : List Char → Option Nat
  | [] => none
  | cs => digitsToNatAux 0 cs

/-- Parse an optionally signed base-10 numeral. -/
def pyIntList : List Char → Option Int
  | '-' :: rest => (digitsToNat rest).map (fun n => -(n : Int))
  | '+' :: rest => (digitsToNat rest).map (fun n => (n : Int))
  | cs => (digitsToNat cs).map (fun n => (n : Int))

/-- Python `int(s)`: surrounding whitespace is tolerated, the body must be an
optionally signed base-10 numeral. -/
def pyInt (s : String) : Option Int :=
  pyIntList (pyStripList s.data)

/-! ## Values and Python comparison semantics -/

/-- A decoded table cell.  Integer cells and (converted) time cells are
`int`; string cells, and cells left as raw text after a failed conversion,
are `str`. -/
inductive PdsValue where
  | int : Int → PdsValue
  | str : String → PdsValue
  deriving DecidableEq, Repr

/-- Python `==` across the value types that occur in a decoded column:
`int == str` is `False`, never an error. -/
def pyEq : PdsValue → PdsValue → Bool
  | .int a, .int b => a == b
  | .str a, .str b => a == b
  | _, _ => false

/-- Python `v < bound` against a numeric bound: ordered for numbers,
a `TypeError` (modelled by `none`) for strings. -/
def pyLtInt : PdsValue → Int → Option Bool
  | .int a, b => some (a < b)
  | .str _, _ => none

/-- Python `v > bound` against a numeric bound. -/
def pyGtInt : PdsValue → Int → Option Bool
  | .int a, b => some (a > b)
  | .str _, _ => none

/-- `lowercase_value` from `pdstable/__init__.py`: lower-cases strings and
leaves numbers unchanged. -/
def lowercaseValue : PdsValue → PdsValue
  | .str s => .str (pyLower s)
  | .int n => .int n

/-- Python `v in invalid_values` (set membership by equality). -/
def memInvalid (v : PdsValue) (invs : List PdsValue) : Bool :=
  invs.any (fun w => pyEq v w)

/-- Modelled Python runtime errors. -/
inductive PyError where
  | valueError (msg : String)
  | nameError (missing : String)
  | typeError (msg : String)
  | keyError (key : String)
  | indexError (msg : String)
  | rowNotFound (params : List (String × PdsValue))
  deriving DecidableEq, Repr

/-! ## The column decoder (`PdsTable.__init__`, lines 291-471)

For each item stream of each selected column, the code converts the raw
ASCII fields into typed values plus an invalidity mask.  Numeric and
selected-time columns first try a bulk conversion of the whole stream; when
that fails for any row, they fall back to row-by-row conversion.
-/

/-- The logical data type of a column, as resolved by `PdsColumnInfo`
(restricted to the types exercised by the claims). -/
inductive DataType where
  | int
  | time
  | string
  deriving DecidableEq, Repr

/-- `mapM` specialised to `Except` with explicit first-error semantics. -/
def mapExcept (f : α → Except PyError β) : List α → Except PyError (List β)
  | [] => .ok []
  | a :: as =>
    match f a with
    | .error e => .error e
    | .ok b =>
      match mapExcept f as with
      | .error e => .error e
      | .ok bs => .ok (b :: bs)

/-- `mapM` specialised to `Option`: `none` when any element fails, which is
how a numpy bulk `astype` (or a vectorized `tai_from_iso`) fails. -/
def mapOption (f : α → Option β) : List α → Option (List β)
  | [] => some []
  | a :: as =>
    match f a, mapOption f as with
    | some b, some bs => some (b :: bs)
    | _, _ => none

/-- The replacement-dictionary lookup `repdict.get(item, item)` applied to a
converted value (lines 389-390). -/
def repGet (repdict : List (PdsValue × PdsValue)) (v : PdsValue) : PdsValue :=
  match repdict.find? (fun p => pyEq p.1 v) with
  | some p => p.2
  | none => v

/-- The bulk typed-replacement loop `items[items == before] = after`
(lines 367-371), applied pairwise and elementwise; a pair whose key has a
different type than the array never matches (numpy yields all-False). -/
def applyReps (repdict : List (PdsValue × PdsValue)) (vs : List PdsValue) : List PdsValue :=
  repdict.foldl (fun acc p => acc.map (fun v => if pyEq v p.1 then p.2 else v)) vs

/-- The validity-mask contribution of one value (lines 406-410 row-by-row,
lines 416-431 bulk): membership in `invalid_values`, then the comparisons
against a declared `valid_range`.  Comparing a string against a numeric
bound is a Python 3 `TypeError`. -/
def valueMask (invs : List PdsValue) (vr : Option (Int × Int)) (v : PdsValue) :
    Except PyError Bool :=
  let m := memInvalid v invs
  match vr with
  | none => .ok m
  | some (lo, hi) =>
    match pyLtInt v lo, pyGtInt v hi with
    | some b1, some b2 => .ok (m || b1 || b2)
    | _, _ => .error (.typeError "unorderable types: str() < int()")

/-- Outcome of the row-by-row fallback for one row. -/
structure RowOut where
  value : PdsValue
  maskBit : Bool
  failed : Bool
  deriving DecidableEq, Repr

/-- One row of the row-by-row fallback (lines 383-412): convert with the
scalar function; on success apply the replacement dictionary; on failure
keep the raw text (decoded, stripped unless the column is in `nostrip`) and
mark the row invalid.  The validity criteria then run on whatever value the
row ended with. -/
def fallbackRow (func : String → Option PdsValue) (repdict : List (PdsValue × PdsValue))
    (strip : Bool) (invs : List PdsValue) (vr : Option (Int × Int)) (raw : String) :
    Except PyError RowOut :=
  match func raw with
  | some v0 =>
    let v := repGet repdict v0
    match valueMask invs vr v with
    | .ok m => .ok ⟨v, m, false⟩
    | .error e => .error e
  | none =>
    let s := if strip then pyStrip raw else raw
    match valueMask invs vr (.str s) with
    | .ok _ => .ok ⟨.str s, true, true⟩
    | .error e => .error e

/-- The decoded form of one item stream: typed values, invalidity mask, and
the per-column fallback-failure diagnostics (`error_count`,
`error_example`). -/
structure ItemsResult where
  values : List PdsValue
  mask : List Bool
  errorCount : Nat
  errorExample : Option String
  deriving DecidableEq, Repr

/-- Text stored for a failed row (always built by the `.str` branch). -/
def strOfValue : PdsValue → String
  | .str s => s
  | .int n => toString n

/-- The whole row-by-row fallback over a stream (lines 381-414), collecting
the failure count and the first failing example. -/
def fallbackItems (func : String → Option PdsValue) (repdict : List (PdsValue × PdsValue))
    (strip : Bool) (invs : List PdsValue) (vr : Option (Int × Int)) (raws : List String) :
    Except PyError ItemsResult :=
  match mapExcept (fallbackRow func repdict strip invs vr) raws with
  | .error e => .error e
  | .ok rs =>
    .ok ⟨rs.map (·.value), rs.map (·.maskBit),
         (rs.filter (·.failed)).length,
         ((rs.filter (·.failed)).head?).map (fun r => strOfValue r.value)⟩

/-- The scalar conversion function used by the numeric/time branch:
`int` for integer columns, the external `tai_from_iso` for time columns. -/
def convFunc (dt : DataType) (tai : String → Option Int) : String → Option PdsValue :=
  match dt with
  | .int => fun r => (pyInt r).map PdsValue.int
  | _ => fun r => (tai r).map PdsValue.int

/-- Whether this column takes the plain string branch (lines 352-358):
`string` columns, and `time` columns not listed in the `times` argument. -/
def stringBranch (dt : DataType) (timeSelected : Bool) : Bool :=
  dt == .string || (dt == .time && !timeSelected)

/-- Decoding of one item stream of one column (lines 349-434).

* String branch: decode to text, strip unless exempted, then run the
  bulk validity criteria.
* Numeric/selected-time branch: attempt the bulk conversion of the whole
  stream (with the typed replacement pass for integer columns; for time
  columns the pass acts on the byte array where non-byte keys never match,
  hence is the identity here); if it succeeds, run the bulk validity
  criteria; if any row fails, fall back to row-by-row conversion. -/
def decodeItems (dt : DataType) (timeSelected : Bool) (tai : String → Option Int)
    (repdict : List (PdsValue × PdsValue)) (strip : Bool)
    (invs : List PdsValue) (vr : Option (Int × Int)) (raws : List String) :
    Except PyError ItemsResult :=
  if stringBranch dt timeSelected then
    let vals := raws.map (fun r => PdsValue.str (if strip then pyStrip r else r))
    match mapExcept (valueMask invs vr) vals with
    | .error e => .error e
    | .ok ms => .ok ⟨vals, ms, 0, none⟩
  else
    let func := convFunc dt tai
    match mapOption func raws with
    | some vs0 =>
      let vs := if dt == .int then applyReps repdict vs0 else vs0
      match mapExcept (valueMask invs vr) vs with
      | .error e => .error e
      | .ok ms => .ok ⟨vs, ms, 0, none⟩
    | none => fallbackItems func repdict strip invs vr raws

/-! ## Lemmas about the decoder -/

/-- A value whose validity check passed with mask `false` is not among the
invalid values, and lies in the declared valid range. -/
theorem valueMask_ok_false {invs : List PdsValue} {vr : Option (Int × Int)} {v : PdsValue}
    (h : valueMask invs vr v = .ok false) :
    memInvalid v invs = false ∧
      ∀ lo hi, vr = some (lo, hi) → ∃ n, v = PdsValue.int n ∧ lo ≤ n ∧ n ≤ hi := by
  cases vr with
  | none =>
    simp only [valueMask] at h
    refine ⟨by injection h, ?_⟩
    intro lo hi h'
    cases h'
  | some p =>
    obtain ⟨lo, hi⟩ := p
    cases v with
    | int n =>
      simp only [valueMask, pyLtInt, pyGtInt] at h
      injection h with h
      simp only [Bool.or_eq_false_iff, decide_eq_false_iff_not, not_lt] at h
      refine ⟨h.1.1, ?_⟩
      intro lo' hi' h'
      injection h' with h'
      cases h'
      exact ⟨n, rfl, h.1.2, h.2⟩
    | str s =>
      simp only [valueMask, pyLtInt, pyGtInt] at h
      injection h

/-- Indexing a successful `mapExcept` recovers the element-level call. -/
theorem mapExcept_ok_getElem {α β : Type} {f : α → Except PyError β} :
    ∀ {l : List α} {l' : List β}, mapExcept f l = .ok l' →
      ∀ (k : Nat) (b : β), l'[k]? = some b → ∃ a, l[k]? = some a ∧ f a = .ok b := by
  intro l
  induction l with
  | nil =>
    intro l' h k b hb
    simp only [mapExcept] at h
    injection h with h
    subst h
    simp at hb
  | cons a as ih =>
    intro l' h k b hb
    simp only [mapExcept] at h
    cases hfa : f a with
    | error e => rw [hfa] at h; cases h
    | ok b0 =>
      rw [hfa] at h
      cases hrest : mapExcept f as with
      | error e => rw [hrest] at h; cases h
      | ok bs =>
        rw [hrest] at h
        injection h with h
        subst h
        cases k with
        | zero =>
          simp only [List.getElem?_cons_zero, Option.some_inj] at hb
          subst hb
          exact ⟨a, by simp, hfa⟩
        | succ k' =>
          simp only [List.getElem?_cons_succ] at hb
          obtain ⟨a', ha', hfa'⟩ := ih hrest k' b hb
          exact ⟨a', by simpa using ha', hfa'⟩

/-- A fallback row that ends with mask bit `false` passed its validity
check (in particular, its conversion succeeded). -/
theorem fallbackRow_maskBit_false {func : String → Option PdsValue}
    {repdict : List (PdsValue × PdsValue)} {strip : Bool} {invs : List PdsValue}
    {vr : Option (Int × Int)} {raw : String} {r : RowOut}
    (h : fallbackRow func repdict strip invs vr raw = .ok r) (hm : r.maskBit = false) :
    valueMask invs vr r.value = .ok false := by
  simp only [fallbackRow] at h
  split at h
  · -- conversion succeeded
    split at h
    · rename_i v0 _ m hv
      injection h with h
      subst h
      simp only at hm
      subst hm
      exact hv
    · injection h
  · -- conversion failed: the mask bit is true, contradicting `hm`
    split at h
    · injection h with h
      subst h
      simp at hm
    · injection h

/-- **C1.** For every constructed table, every selected column and every row:
if the mask entry is `false`, the stored value is not a member of the
column's `invalid_values`, and, when a `valid_range` is declared, the value
is an ordered (integer) value lying within its inclusive bounds.  This holds
on the bulk-conversion path, the row-by-row fallback path and the string
branch alike. -/
theorem c1_valid_when_unmasked
    (dt : DataType) (timeSelected : Bool) (tai : String → Option Int)
    (repdict : List (PdsValue × PdsValue)) (strip : Bool)
    (invs : List PdsValue) (vr : Option (Int × Int)) (raws : List String)
    (res : ItemsResult)
    (hok : decodeItems dt timeSelected tai repdict strip invs vr raws = .ok res)
    (k : Nat) (hmask : res.mask[k]? = some false) :
    ∃ v, res.values[k]? = some v ∧ memInvalid v invs = false ∧
      ∀ lo hi, vr = some (lo, hi) → ∃ n, v = PdsValue.int n ∧ lo ≤ n ∧ n ≤ hi := by
  unfold decodeItems at hok
  split at hok
  · -- string branch
    dsimp only at hok
    split at hok
    · injection hok
    · rename_i ms hm
      injection hok with hok
      subst hok
      simp only at hmask
      obtain ⟨v, hv, hvm⟩ := mapExcept_ok_getElem hm k false hmask
      exact ⟨v, hv, valueMask_ok_false hvm⟩
  · -- numeric / selected-time branch
    dsimp only at hok
    split at hok
    · -- bulk conversion succeeded
      split at hok
      · injection hok
      · rename_i ms hm
        injection hok with hok
        subst hok
        simp only at hmask
        obtain ⟨v, hv, hvm⟩ := mapExcept_ok_getElem hm k false hmask
        exact ⟨v, hv, valueMask_ok_false hvm⟩
    · -- row-by-row fallback
      simp only [fallbackItems] at hok
      split at hok
      · injection hok
      · rename_i rs hme
        injection hok with hok
        subst hok
        simp only [List.getElem?_map] at hmask
        cases hr : rs[k]? with
        | none => rw [hr] at hmask; cases hmask
        | some r =>
          rw [hr] at hmask
          simp only [Option.map_some', Option.some_inj] at hmask
          obtain ⟨raw, _, hfr⟩ := mapExcept_ok_getElem hme k r hr
          obtain ⟨h1, h2⟩ := valueMask_ok_false (fallbackRow_maskBit_false hfr hmask)
          refine ⟨r.value, ?_, h1, h2⟩
          simp only [List.getElem?_map, hr, Option.map_some']

/-- **C1 witness.** A concrete 1-row integer column with an invalid value
and a declared valid range; row 0 is unmasked and its value 3 is valid. -/
theorem c1_witness :
    ∃ v, (ItemsResult.mk [PdsValue.int 3] [false] 0 none).values[0]? = some v ∧
      memInvalid v [PdsValue.int (-999)] = false ∧
      ∀ lo hi, (some ((0 : Int), (100 : Int)) : Option (Int × Int)) = some (lo, hi) →
        ∃ n, v = PdsValue.int n ∧ lo ≤ n ∧ n ≤ hi :=
  c1_valid_when_unmasked .int false (fun _ => none) [] true
    [PdsValue.int (-999)] (some (0, 100)) ["3"] (ItemsResult.mk [PdsValue.int 3] [false] 0 none)
    (by rfl) 0 (by rfl)

/-! ## Reading the table and checking the row count (lines 207-240) -/

/-- The record-reading and row-count check of `PdsTable.__init__`.

* Full read: all lines are read; a count differing from the label's `ROWS`
  raises a `ValueError` with the file name and both counts (lines 216-219).
* `row_range` read: at most `last - first` lines can be read starting at the
  requested offset (over-reads are truncated, line 231-232); when fewer were
  read, the code builds the mismatch message at lines 235-240, which
  interpolates the name `count` — a name never defined in the function — so
  evaluating it raises `NameError` instead of the intended `ValueError`.

Returns `(first, rows)` on success. -/
def readAndCheckRows (fileLines : Nat) (labelRows : Nat) (rowRange : Option (Nat × Nat))
    (labelFile : String) : Except PyError (Nat × Nat) :=
  match rowRange with
  | none =>
    if fileLines != labelRows then
      .error (.valueError ("row count mismatch in " ++ labelFile ++ ": " ++
        toString fileLines ++ " rows in file; label says ROWS = " ++ toString labelRows))
    else .ok (0, labelRows)
  | some (a, b) =>
    let rows := b - a
    let linesRead := min rows (fileLines - a)
    if linesRead != rows then
      .error (.nameError "count")
    else .ok (a, rows)

/-- **C2.** Construction does fail when the physical record count disagrees
with the expected count, and the full-read error does report both counts;
but on the `row_range` path the mismatch error is a `NameError` over the
undefined variable `count`, not the described message carrying the number
of rows read and requested: a 4-line file with `row_range = (0, 5)`. -/
theorem c2_row_count_mismatch :
    readAndCheckRows 4 5 none "label.lbl" =
      .error (.valueError
        "row count mismatch in label.lbl: 4 rows in file; label says ROWS = 5") ∧
    readAndCheckRows 4 4 (some (0, 4)) "label.lbl" = .ok (0, 4) ∧
    readAndCheckRows 4 5 (some (0, 5)) "label.lbl" = .error (.nameError "count") := by
  exact ⟨by rfl, by rfl, by rfl⟩

/-- **C4.** The row-by-row fallback does **not** skip the valid-range
comparison for a row whose conversion failed: the raw string is compared
against the numeric bound, which in Python 3 raises an uncaught
`TypeError`, aborting construction instead of completing with the row
masked.  Witnessed by an integer column with `valid_range = (0, 100)` whose
single row is the unparseable text `abc`. -/
theorem c4_failed_conversion_with_range_raises_typeerror :
    decodeItems .int false (fun _ => none) [] true [] (some (0, 100)) ["abc"] =
      .error (.typeError "unorderable types: str() < int()") ∧
    decodeItems .int false (fun _ => none) [] true [] none ["abc"] =
      .ok ⟨[PdsValue.str "abc"], [true], 1, some "abc"⟩ := by
  exact ⟨by rfl, by rfl⟩

/-! ## The per-column diagnostic warning (lines 460-471) -/

/-- The data carried by the aggregated `ColumnDecodeWarning`. -/
structure ColumnWarning where
  dataType : DataType
  colname : String
  count : Nat
  firstExample : String
  deriving DecidableEq, Repr

/-- Lines 460-471: after a column is decoded, at most one warning is
emitted, exactly when `error_count` is non-zero; it carries the column's
data type, name, failure count and the first failing example, stripped. -/
def columnWarning (name : String) (dt : DataType) (res : ItemsResult) : Option ColumnWarning :=
  if res.errorCount != 0 then
    some ⟨dt, name, res.errorCount, pyStrip (res.errorExample.getD "")⟩
  else
    none

/-! ### Auxiliary lemmas for the fallback diagnostics -/

/-- `dropWhile` is idempotent. -/
theorem dropWhile_self_idem (p : Char → Bool) (l : List Char) :
    (l.dropWhile p).dropWhile p = l.dropWhile p := by
  induction l with
  | nil => rfl
  | cons a t ih =>
    by_cases h : p a
    · simp [List.dropWhile_cons, h, ih]
    · simp [List.dropWhile_cons, h]

/-- The head surviving a `dropWhile` does not satisfy the predicate. -/
theorem head_dropWhile_not (p : Char → Bool) :
    ∀ (l : List Char) (a : Char), (l.dropWhile p).head? = some a → p a = false := by
  intro l
  induction l with
  | nil => intro a h; cases h
  | cons b t ih =>
    intro a h
    by_cases hb : p b
    · rw [List.dropWhile_cons_of_pos hb] at h
      exact ih a h
    · rw [List.dropWhile_cons_of_neg hb] at h
      injection h with h
      subst h
      exact Bool.eq_false_iff.mpr hb

/-- A list whose head does not satisfy `p` is unchanged by `dropWhile p`. -/
theorem dropWhile_eq_self_of_head (p : Char → Bool) (l : List Char)
    (h : ∀ a, l.head? = some a → p a = false) : l.dropWhile p = l := by
  cases l with
  | nil => rfl
  | cons a t =>
    have := h a rfl
    simp [List.dropWhile_cons, this]

/-- A non-vanishing `dropWhile` keeps the last element. -/
theorem getLast?_dropWhile (p : Char → Bool) :
    ∀ (l : List Char), l.dropWhile p ≠ [] → (l.dropWhile p).getLast? = l.getLast? := by
  intro l
  induction l with
  | nil => intro h; cases h rfl
  | cons a t ih =>
    intro h
    by_cases ha : p a
    · rw [List.dropWhile_cons_of_pos ha] at h ⊢
      rw [ih h]
      cases t with
      | nil => rw [List.dropWhile_nil] at h; cases h rfl
      | cons b u => rfl
    · rw [List.dropWhile_cons_of_neg ha]

/-- `pyStripList` is idempotent. -/
theorem pyStripList_idem (l : List Char) : pyStripList (pyStripList l) = pyStripList l := by
  unfold pyStripList
  set B := l.dropWhile isWsChar with hB
  set C := B.reverse.dropWhile isWsChar with hC
  have hfront : C.reverse.dropWhile isWsChar = C.reverse := by
    apply dropWhile_eq_self_of_head
    intro a ha
    rw [List.head?_reverse] at ha
    have hC_ne : C ≠ [] := by
      intro hnil
      rw [hnil] at ha
      cases ha
    have h1 : C.getLast? = B.reverse.getLast? := getLast?_dropWhile isWsChar B.reverse hC_ne
    rw [h1, List.getLast?_reverse] at ha
    exact head_dropWhile_not isWsChar l a (by rw [← hB]; exact ha)
  rw [hfront, List.reverse_reverse]
  rw [dropWhile_self_idem]

/-- `pyStrip` is idempotent. -/
theorem pyStrip_idem (s : String) : pyStrip (pyStrip s) = pyStrip s := by
  simp [pyStrip, pyStripList_idem]

/-- Shape of a successful fallback row: a failed conversion stores the
(possibly stripped) raw text with both flags set; a successful conversion
is not flagged as failed. -/
theorem fallbackRow_shape {func : String → Option PdsValue}
    {repdict : List (PdsValue × PdsValue)} {strip : Bool} {invs : List PdsValue}
    {vr : Option (Int × Int)} {raw : String} {r : RowOut}
    (h : fallbackRow func repdict strip invs vr raw = .ok r) :
    if (func raw).isNone then
      r = ⟨.str (if strip then pyStrip raw else raw), true, true⟩
    else r.failed = false := by
  simp only [fallbackRow] at h
  split at h
  · rename_i v0 hf
    rw [hf]
    simp only [Option.isNone_some, Bool.false_eq_true, if_false]
    split at h
    · injection h with h
      subst h
      rfl
    · injection h
  · rename_i hf
    rw [hf]
    simp only [Option.isNone_none, if_true]
    split at h
    · injection h with h
      subst h
      rfl
    · injection h

/-- The failed rows of a fallback run are exactly the rows whose raw text
does not convert, in order, each stored as stripped raw text. -/
theorem fallback_filter_failed {func : String → Option PdsValue}
    {repdict : List (PdsValue × PdsValue)} {strip : Bool} {invs : List PdsValue}
    {vr : Option (Int × Int)} :
    ∀ {raws : List String} {rs : List RowOut},
      mapExcept (fallbackRow func repdict strip invs vr) raws = .ok rs →
      rs.filter (·.failed) =
        (raws.filter (fun r => (func r).isNone)).map
          (fun r => ⟨.str (if strip then pyStrip r else r), true, true⟩) := by
  intro raws
  induction raws with
  | nil =>
    intro rs h
    simp only [mapExcept] at h
    injection h with h
    subst h
    rfl
  | cons a as ih =>
    intro rs h
    simp only [mapExcept] at h
    split at h
    · injection h
    · rename_i r hr
      split at h
      · injection h
      · rename_i rs' hrs
        injection h with h
        subst h
        have hshape := fallbackRow_shape hr
        by_cases hf : (func a).isNone
        · rw [if_pos hf] at hshape
          subst hshape
          simp only [List.filter_cons, hf, List.map_cons, if_pos]
          rw [ih hrs]
        · rw [if_neg hf] at hshape
          simp only [Bool.not_eq_true] at hf
          simp only [List.filter_cons, hf, hshape, Bool.false_eq_true, if_false]
          exact ih hrs

/-- Forward indexing of a successful `mapExcept`. -/
theorem mapExcept_ok_getElem_fwd {α β : Type} {f : α → Except PyError β} :
    ∀ {l : List α} {l' : List β}, mapExcept f l = .ok l' →
      ∀ (k : Nat) (a : α), l[k]? = some a → ∃ b, l'[k]? = some b ∧ f a = .ok b := by
  intro l
  induction l with
  | nil =>
    intro l' h k a ha
    simp at ha
  | cons x xs ih =>
    intro l' h k a ha
    simp only [mapExcept] at h
    split at h
    · injection h
    · rename_i b0 hb0
      split at h
      · injection h
      · rename_i bs hbs
        injection h with h
        subst h
        cases k with
        | zero =>
          simp only [List.getElem?_cons_zero, Option.some_inj] at ha
          subst ha
          exact ⟨b0, by simp, hb0⟩
        | succ k' =>
          simp only [List.getElem?_cons_succ] at ha
          obtain ⟨b, hb, hfb⟩ := ih hbs k' a ha
          exact ⟨b, by simpa using hb, hfb⟩

/-- A successful bulk conversion converted every row. -/
theorem mapOption_some_mem {α β : Type} {f : α → Option β} :
    ∀ {l : List α} {l' : List β}, mapOption f l = some l' →
      ∀ a ∈ l, (f a).isNone = false := by
  intro l
  induction l with
  | nil => intro l' h a ha; cases ha
  | cons x xs ih =>
    intro l' h a ha
    simp only [mapOption] at h
    split at h
    · rename_i b bs hb hbs
      cases ha with
      | head => simp [hb]
      | tail _ hmem => exact ih hbs a hmem
    · injection h

/-- **C5 (amended).** If row-by-row fallback conversion fails for one or
more rows of a numeric or selected-time column, exactly one non-fatal
warning is emitted for that column — never one per row — carrying the
column's logical data type, the column name, the failure count, and the
first failing raw value (whitespace-stripped); the column remains usable
with every failing row marked `True` in its mask (rows that converted
successfully may additionally be masked by the invalid-value and
valid-range checks).  If no row fails, no warning is emitted. -/
theorem c5_one_warning_per_failing_column
    (dt : DataType) (timeSelected : Bool) (tai : String → Option Int)
    (repdict : List (PdsValue × PdsValue)) (strip : Bool)
    (invs : List PdsValue) (vr : Option (Int × Int)) (raws : List String)
    (res : ItemsResult) (name : String)
    (hnum : stringBranch dt timeSelected = false)
    (hok : decodeItems dt timeSelected tai repdict strip invs vr raws = .ok res) :
    res.errorCount = (raws.filter (fun r => (convFunc dt tai r).isNone)).length ∧
    res.errorExample = ((raws.filter (fun r => (convFunc dt tai r).isNone)).head?).map
        (fun r => if strip then pyStrip r else r) ∧
    columnWarning name dt res =
      (if (raws.filter (fun r => (convFunc dt tai r).isNone)).length = 0 then none
       else some ⟨dt, name, (raws.filter (fun r => (convFunc dt tai r).isNone)).length,
         pyStrip (((raws.filter (fun r => (convFunc dt tai r).isNone)).head?).getD "")⟩) ∧
    (∀ (k : Nat) (r : String), raws[k]? = some r → (convFunc dt tai r).isNone = true →
      res.mask[k]? = some true) := by
  unfold decodeItems at hok
  split at hok
  · rename_i hb
    rw [hnum] at hb
    simp at hb
  · dsimp only at hok
    split at hok
    · -- bulk conversion succeeded: no failing rows at all
      rename_i vs0 hmo
      split at hok
      · injection hok
      · rename_i ms hm
        injection hok with hok
        subst hok
        have hall := mapOption_some_mem hmo
        have hfilt : raws.filter (fun r => (convFunc dt tai r).isNone) = [] := by
          rw [List.filter_eq_nil_iff]
          intro a ha
          simp [hall a ha]
        refine ⟨by simp [hfilt], by simp [hfilt], ?_, ?_⟩
        · rw [hfilt]
          simp [columnWarning]
        · intro k r hk hnone
          have hmem : r ∈ raws := List.getElem?_mem hk
          rw [hall r hmem] at hnone
          cases hnone
    · -- row-by-row fallback
      rename_i hmo
      simp only [fallbackItems] at hok
      split at hok
      · injection hok
      · rename_i rs hme
        injection hok with hok
        subst hok
        have hfilter := fallback_filter_failed hme
        have hcnt : (rs.filter (·.failed)).length =
            (raws.filter (fun r => (convFunc dt tai r).isNone)).length := by
          rw [hfilter, List.length_map]
        have hex : ((rs.filter (·.failed)).head?).map (fun r => strOfValue r.value) =
            ((raws.filter (fun r => (convFunc dt tai r).isNone)).head?).map
              (fun r => if strip then pyStrip r else r) := by
          rw [hfilter, List.head?_map]
          cases (raws.filter (fun r => (convFunc dt tai r).isNone)).head? with
          | none => rfl
          | some r0 => simp [strOfValue]
        refine ⟨hcnt, hex, ?_, ?_⟩
        · simp only [columnWarning, hcnt, hex]
          cases hfc : raws.filter (fun r => (convFunc dt tai r).isNone) with
          | nil => simp [hfc]
          | cons r0 tl =>
            simp only [List.length_cons, List.head?_cons, Option.map_some',
              Option.getD_some]
            rw [if_pos (by simp)]
            have hps : pyStrip (if strip = true then pyStrip r0 else r0) = pyStrip r0 := by
              cases strip with
              | true => simp [pyStrip_idem]
              | false => simp
            rw [hps, if_neg (by simp)]
        · intro k r hk hnone
          obtain ⟨b, hb, hfb⟩ := mapExcept_ok_getElem_fwd hme k r hk
          have hshape := fallbackRow_shape hfb
          rw [if_pos hnone] at hshape
          subst hshape
          simp [hb]

/-- **C5 witness.** A two-row integer column where only `"abc"` fails:
failure count 1, one warning with the stripped example, the failing row
masked. -/
theorem c5_witness :
    (ItemsResult.mk [PdsValue.str "abc", PdsValue.int 7] [true, false] 1
        (some "abc")).errorCount =
      (["abc", "7"].filter
        (fun r => (convFunc .int (fun _ => none) r).isNone)).length ∧
    (ItemsResult.mk [PdsValue.str "abc", PdsValue.int 7] [true, false] 1
        (some "abc")).errorExample =
      ((["abc", "7"].filter
        (fun r => (convFunc .int (fun _ => none) r).isNone)).head?).map
          (fun r => if true then pyStrip r else r) ∧
    columnWarning "N" .int (ItemsResult.mk [PdsValue.str "abc", PdsValue.int 7]
        [true, false] 1 (some "abc")) =
      (if (["abc", "7"].filter
            (fun r => (convFunc .int (fun _ => none) r).isNone)).length = 0 then none
       else some ⟨.int, "N",
         (["abc", "7"].filter
           (fun r => (convFunc .int (fun _ => none) r).isNone)).length,
         pyStrip (((["abc", "7"].filter
           (fun r => (convFunc .int (fun _ => none) r).isNone)).head?).getD "")⟩) ∧
    (∀ (k : Nat) (r : String), (["abc", "7"] : List String)[k]? = some r →
      (convFunc DataType.int (fun _ => none) r).isNone = true →
      (ItemsResult.mk [PdsValue.str "abc", PdsValue.int 7] [true, false] 1
        (some "abc")).mask[k]? = some true) :=
  c5_one_warning_per_failing_column .int false (fun _ => none) [] true [] none
    ["abc", "7"]
    (ItemsResult.mk [PdsValue.str "abc", PdsValue.int 7] [true, false] 1 (some "abc"))
    "N" (by rfl) (by rfl)

/-- **C5 counterexample.** The claim's phrase "exactly the failing rows
marked True" fails: with `invalid_values = {-999}` and rows
`["abc", "-999"]`, only row 0 fails conversion, yet both rows are masked —
row 1 because its (successfully converted) value is an invalid value. -/
theorem c5_counterexample :
    decodeItems .int false (fun _ => none) [] true [PdsValue.int (-999)] none
        ["abc", "-999"] =
      .ok ⟨[PdsValue.str "abc", PdsValue.int (-999)], [true, true], 1, some "abc"⟩ ∧
    ["abc", "-999"].map (fun r => (convFunc .int (fun _ => none) r).isNone) =
      [true, false] ∧
    ([true, true] : List Bool) ≠ [true, false] := by
  exact ⟨by rfl, by rfl, by decide⟩

/-! ## The lookup model (`dicts_by_row` world and `find_row_indices`)

A `QTable` holds, per selected column, the decoded per-row values (a list of
items, a singleton for scalar columns) and masks, under the name the row
dictionaries use for that column (the declared name, or — in the
`lowercase=(True,True)` world used by the volume/filespec resolver — the
lower-cased name).  Values are `PdsValue`s: Python ints and strings, the
kinds on which line 632's `isinstance` dispatch succeeds; the numpy-scalar
representation of a bulk-converted Integer column is modelled separately
under claim C3 below. -/

structure QColumn where
  name : String
  values : List (List PdsValue)
  masks : List (List Bool)
  deriving DecidableEq, Repr

structure QTable where
  cols : List QColumn
  nrows : Nat
  deriving DecidableEq, Repr

/-- Column lookup by dictionary key. -/
def getCol (t : QTable) (name : String) : Option QColumn :=
  t.cols.find? (fun c => c.name == name)

/-- One entry of the `test_info` list built at lines 596-606. -/
structure TestInfo where
  key : String
  baseName : String
  matchValue : PdsValue
  testSubstring : Bool
  lowered : Bool
  deriving DecidableEq, Repr

/-- `key[:-6]`, used for keys ending in `_lower`. -/
def dropLowerSuffix (key : String) : String :=
  String.mk (key.data.take (key.data.length - 6))

/-- Lines 596-606: a key ending in `_lower` is matched against lower-cased
values, with the mask looked up under `key[:-6] + "_mask"`. -/
def mkTestInfo (substrings : List String) (p : String × PdsValue) : TestInfo :=
  if strEndsWith p.1 "_lower" then
    let base := dropLowerSuffix p.1
    ⟨p.1, base, lowercaseValue p.2,
     substrings.contains p.1 || substrings.contains base, true⟩
  else
    ⟨p.1, p.1, p.2, substrings.contains p.1, false⟩

/-- One item against the predicate value (lines 626-635), for values on
which line 632's `isinstance` dispatch succeeds (Python ints, strings) or
item sequences: substring tests require string operands (`in` on a number
is a `TypeError`); equality never errors.  The numpy integer scalars a
bulk-converted Integer column stores take a different, erroring path —
see `valueTestNp` below (claim C3). -/
def itemMatch (testSubstring : Bool) (mv c : PdsValue) : Except PyError Bool :=
  if testSubstring then
    match mv, c with
    | .str nv, .str cv => .ok (strContainsSub cv nv)
    | _, _ => .error (.typeError "argument of type is not iterable")
  else
    .ok (pyEq mv c)

/-- All items of a row's column value against the predicate value; the list
comprehension at lines 626-635 evaluates every item, then `np.any` demands
that none failed. -/
def itemsMatch (testSubstring : Bool) (mv : PdsValue) : List PdsValue → Except PyError Bool
  | [] => .ok true
  | c :: cs =>
    match itemMatch testSubstring mv c with
    | .error e => .error e
    | .ok b =>
      match itemsMatch testSubstring mv cs with
      | .error e => .error e
      | .ok b2 => .ok (b && b2)

/-- One test applied to one row (lines 618-639): a row with any mask bit set
is rejected before the value is compared; a missing dictionary key is a
`KeyError` on the mask key. -/
def applyTest (t : QTable) (ti : TestInfo) (k : Nat) : Except PyError Bool :=
  match getCol t ti.baseName with
  | none => .error (.keyError (ti.baseName ++ "_mask"))
  | some col =>
    match col.masks[k]? with
    | none => .error (.indexError "list index out of range")
    | some ms =>
      if ms.any id then .ok false
      else
        match col.values[k]? with
        | none => .error (.indexError "list index out of range")
        | some vs0 =>
          let vs := if ti.lowered then vs0.map lowercaseValue else vs0
          itemsMatch ti.testSubstring ti.matchValue vs

/-- All tests applied to one row, short-circuiting on the first failing
test (lines 614-639). -/
def rowMatch (t : QTable) : List TestInfo → Nat → Except PyError Bool
  | [], _ => .ok true
  | ti :: rest, k =>
    match applyTest t ti k with
    | .error e => .error e
    | .ok false => .ok false
    | .ok true => rowMatch t rest k

/-- Python truthiness of the `limit` argument: `None` and `0` are falsy. -/
def pyTruthyLimit : Option Int → Bool
  | none => false
  | some n => n != 0

/-- The row loop of `find_row_indices` (lines 608-647): `rem` rows remain,
`k` is the current row index, `cnt` the number of matches so far; the early
return at lines 644-645 triggers only when `limit` is truthy. -/
def findRowIndicesAux (t : QTable) (tests : List TestInfo) (limit : Option Int) :
    Nat → Nat → Nat → Except PyError (List Nat)
  | 0, _, _ => .ok []
  | rem + 1, k, cnt =>
    match rowMatch t tests k with
    | .error e => .error e
    | .ok true =>
      if pyTruthyLimit limit && decide ((limit.getD 0) ≤ ((cnt : Int) + 1)) then
        .ok [k]
      else
        match findRowIndicesAux t tests limit rem (k + 1) (cnt + 1) with
        | .error e => .error e
        | .ok rest => .ok (k :: rest)
    | .ok false => findRowIndicesAux t tests limit rem (k + 1) cnt

/-- `PdsTable.find_row_indices` (lines 575-647). -/
def findRowIndices (t : QTable) (params : List (String × PdsValue))
    (substrings : List String) (limit : Option Int) : Except PyError (List Nat) :=
  findRowIndicesAux t (params.map (mkTestInfo substrings)) limit t.nrows 0 0

/-- `PdsTable.find_row_index` (lines 649-665): delegate with `limit=1`,
return the first match, raise `row not found` carrying the predicates
otherwise. -/
def findRowIndex (t : QTable) (params : List (String × PdsValue))
    (substrings : List String) : Except PyError Nat :=
  match findRowIndices t params substrings (some 1) with
  | .error e => .error e
  | .ok (m :: _) => .ok m
  | .ok [] => .error (.rowNotFound params)

/-- The spec's 4-row scenario values as a `QTable` in the Python-int
representation: an Integer column `N` holding `[3, -999, 12, 16]` with
`invalid_values = {-999}`, hence mask `[false, true, false, false]`.
(The bulk-path numpy representation of the same table is the subject of
claim C3.) -/
def nTable : QTable :=
  ⟨[⟨"N",
     [[.int 3], [.int (-999)], [.int 12], [.int 16]],
     [[false], [true], [false], [false]]⟩], 4⟩

/-! ## C3: `find_row_indices` on a bulk-decoded Integer column

The `QTable` world above represents row-dictionary values by `PdsValue`,
covering the values on which line 632's
`isinstance(column_values, (str, int, float))` dispatch succeeds: Python
ints (the representation a row-by-row decoded numeric column stores) and
strings (`np.str_` subclasses `str`).  A bulk-converted Integer column,
however, stores a numpy integer array (line 365), so its row dictionaries
hold `np.int64` scalars — and under Python 3 `np.int64` does **not**
subclass `int`.  Line 632 is then `False` and line 635 iterates the
scalar: `TypeError` (an `np.int64` object is not iterable).  The model
below distinguishes the two scalar representations to capture this. -/

/-- A value as stored in a row dictionary, with the distinctions the
`isinstance` dispatch of lines 628-635 observes under Python 3: `pyInt`
is a Python `int` (row-by-row fallback representation), `npInt` an
`np.int64` scalar (bulk representation), `str` covers `str` and its
subclass `np.str_`, and `seq` a tuple or 1-D array of items (multi-item
columns).  Predicate values supplied by callers are scalars. -/
inductive RowValue where
  | pyInt (n : Int)
  | npInt (n : Int)
  | str (s : String)
  | seq (items : List RowValue)

/-- Python `==` between a (scalar) predicate value and a stored scalar:
numpy integer scalars compare numerically with Python ints; mismatched
kinds compare unequal, never erroring. -/
def rvEq : RowValue → RowValue → Bool
  | .pyInt a, .pyInt b => a == b
  | .pyInt a, .npInt b => a == b
  | .npInt a, .pyInt b => a == b
  | .npInt a, .npInt b => a == b
  | .str a, .str b => a == b
  | _, _ => false

/-- `lowercase_value` on a scalar. -/
def lowercaseScalar : RowValue → RowValue
  | .str s => .str (pyLower s)
  | v => v

/-- `lowercase_value` on a row-dictionary value (one level, as in the
source: tuple items are lowered individually). -/
def lowercaseRowValue : RowValue → RowValue
  | .seq items => .seq (items.map lowercaseScalar)
  | v => lowercaseScalar v

/-- One `test_info` entry over row values (lines 596-606, as
`TestInfo`). -/
structure TestInfoNp where
  key : String
  baseName : String
  matchValue : RowValue
  testSubstring : Bool
  lowered : Bool

/-- Lines 596-606 over row values (as `mkTestInfo`). -/
def mkTestInfoNp (substrings : List String) (p : String × RowValue) : TestInfoNp :=
  if strEndsWith p.1 "_lower" then
    let base := dropLowerSuffix p.1
    ⟨p.1, base, lowercaseRowValue p.2,
     substrings.contains p.1 || substrings.contains base, true⟩
  else
    ⟨p.1, p.1, p.2, substrings.contains p.1, false⟩

/-- One item of a sequence value against the predicate value (lines 631
and 635): equality is well-defined for any item; a substring test needs a
string item. -/
def seqItemTest (testSubstring : Bool) (mv c : RowValue) : Except PyError Bool :=
  if testSubstring then
    match mv, c with
    | .str nv, .str cv => .ok (strContainsSub cv nv)
    | _, _ => .error (.typeError "argument of type is not iterable")
  else .ok (rvEq mv c)

/-- All items of a sequence value: the comprehension evaluates every
item, then `np.any` demands that none failed. -/
def seqTest (testSubstring : Bool) (mv : RowValue) : List RowValue → Except PyError Bool
  | [] => .ok true
  | c :: cs =>
    match seqItemTest testSubstring mv c with
    | .error e => .error e
    | .ok b =>
      match seqTest testSubstring mv cs with
      | .error e => .error e
      | .ok b2 => .ok (b && b2)

/-- Lines 626-639 for one row-dictionary value (the mask rejection has
already happened): a scalar `str` takes the single-containment or
single-equality branch; a Python `int` passes the `isinstance` test for
equality but is not iterable for a substring test; an `np.int64` scalar
fails the `isinstance` test and is handed to the iterating else branch —
a `TypeError` in both modes; a sequence is iterated item-wise. -/
def valueTestNp (testSubstring : Bool) (mv : RowValue) : RowValue → Except PyError Bool
  | .str cv =>
    if testSubstring then
      match mv with
      | .str nv => .ok (strContainsSub cv nv)
      | _ => .error (.typeError "in requires string as left operand")
    else .ok (rvEq mv (.str cv))
  | .pyInt n =>
    if testSubstring then .error (.typeError "argument of type int is not iterable")
    else .ok (rvEq mv (.pyInt n))
  | .npInt _ => .error (.typeError "numpy.int64 object is not iterable")
  | .seq items => seqTest testSubstring mv items

/-- A decoded column in the row-value representation. -/
structure NColumn where
  name : String
  values : List RowValue
  masks : List (List Bool)

/-- A table in the row-value representation. -/
structure NTable where
  cols : List NColumn
  nrows : Nat

/-- Column lookup by dictionary key. -/
def getColNp (t : NTable) (name : String) : Option NColumn :=
  t.cols.find? (fun c => c.name == name)

/-- Lines 618-639 over row values (as `applyTest`). -/
def applyTestNp (t : NTable) (ti : TestInfoNp) (k : Nat) : Except PyError Bool :=
  match getColNp t ti.baseName with
  | none => .error (.keyError (ti.baseName ++ "_mask"))
  | some col =>
    match col.masks[k]? with
    | none => .error (.indexError "list index out of range")
    | some ms =>
      if ms.any id then .ok false
      else
        match col.values[k]? with
        | none => .error (.indexError "list index out of range")
        | some v0 =>
          valueTestNp ti.testSubstring ti.matchValue
            (if ti.lowered then lowercaseRowValue v0 else v0)

/-- Lines 614-639 over row values (as `rowMatch`). -/
def rowMatchNp (t : NTable) : List TestInfoNp → Nat → Except PyError Bool
  | [], _ => .ok true
  | ti :: rest, k =>
    match applyTestNp t ti k with
    | .error e => .error e
    | .ok false => .ok false
    | .ok true => rowMatchNp t rest k

/-- The row loop of lines 608-647 over row values (as
`findRowIndicesAux`). -/
def findRowIndicesNpAux (t : NTable) (tests : List TestInfoNp) (limit : Option Int) :
    Nat → Nat → Nat → Except PyError (List Nat)
  | 0, _, _ => .ok []
  | rem + 1, k, cnt =>
    match rowMatchNp t tests k with
    | .error e => .error e
    | .ok true =>
      if pyTruthyLimit limit && decide ((limit.getD 0) ≤ ((cnt : Int) + 1)) then
        .ok [k]
      else
        match findRowIndicesNpAux t tests limit rem (k + 1) (cnt + 1) with
        | .error e => .error e
        | .ok rest => .ok (k :: rest)
    | .ok false => findRowIndicesNpAux t tests limit rem (k + 1) cnt

/-- `PdsTable.find_row_indices` (lines 575-647) over row values. -/
def findRowIndicesNp (t : NTable) (params : List (String × RowValue))
    (substrings : List String) (limit : Option Int) : Except PyError (List Nat) :=
  findRowIndicesNpAux t (params.map (mkTestInfoNp substrings)) limit t.nrows 0 0

/-- The spec's 4-row table as the bulk path actually stores it: the
Integer column `N = [3, -999, 12, 16]` parses in full, so `astype` at
line 365 yields a numpy array and each row dictionary holds an
`np.int64` scalar. -/
def nTableNp : NTable :=
  ⟨[⟨"N",
     [.npInt 3, .npInt (-999), .npInt 12, .npInt 16],
     [[false], [true], [false], [false]]⟩], 4⟩

/-- The same table in the Python-int representation a row-by-row decoded
column stores — the representation under which the matching logic behaves
as intended. -/
def nTablePy : NTable :=
  ⟨[⟨"N",
     [.pyInt 3, .pyInt (-999), .pyInt 12, .pyInt 16],
     [[false], [true], [false], [false]]⟩], 4⟩

/-- **C3.** On the spec's 4-row table the Integer column is decoded on
the bulk path, so its row dictionaries hold `np.int64` scalars; under
Python 3 these fail `isinstance(column_values, (str, int, float))` at
line 632 and are not iterable at line 635, so both
`find_row_indices(N=12)` and `find_row_indices(N=-999)` raise
`TypeError` at the first unmasked row instead of returning `[2]` and
`[]`.  On the Python-int representation of the same values the matching
logic does return `[2]` and `[]`, isolating the failure to the scalar
type — the claim describes the evident intent of lines 626-639, and the
code breaks it. -/
theorem c3_bulk_int_lookup_raises_typeerror :
    findRowIndicesNp nTableNp [("N", .pyInt 12)] [] none =
      .error (.typeError "numpy.int64 object is not iterable") ∧
    findRowIndicesNp nTableNp [("N", .pyInt (-999))] [] none =
      .error (.typeError "numpy.int64 object is not iterable") ∧
    findRowIndicesNp nTablePy [("N", .pyInt 12)] [] none = .ok [2] ∧
    findRowIndicesNp nTablePy [("N", .pyInt (-999))] [] none = .ok [] := by
  exact ⟨by rfl, by rfl, by rfl, by rfl⟩

/-! ## C6 and C10: the single-result lookup and the limit semantics -/

/-- With `limit = 1`, the loop returns the first element of the unlimited
run's result. -/
theorem findRowIndicesAux_limit_one (t : QTable) (tests : List TestInfo) :
    ∀ (rem k0 cnt cnt' : Nat) (l : List Nat),
      findRowIndicesAux t tests none rem k0 cnt = .ok l →
      findRowIndicesAux t tests (some 1) rem k0 cnt' = .ok (l.take 1) := by
  intro rem
  induction rem with
  | zero =>
    intro k0 cnt cnt' l h
    simp only [findRowIndicesAux] at h ⊢
    injection h with h
    subst h
    rfl
  | succ rem ih =>
    intro k0 cnt cnt' l h
    simp only [findRowIndicesAux] at h ⊢
    split at h
    · injection h
    · simp only [pyTruthyLimit, Bool.false_and, Bool.false_eq_true, if_false] at h
      have hcond : (pyTruthyLimit (some 1) &&
          decide (((some (1 : Int)).getD 0) ≤ ((cnt' : Int) + 1))) = true := by
        rw [Bool.and_eq_true]
        constructor
        · rfl
        · rw [decide_eq_true_eq]
          simp only [Option.getD_some]
          omega
      rw [if_pos hcond]
      split at h
      · injection h
      · rename_i rest hrec
        injection h with h
        subst h
        rfl
    · exact ih (k0 + 1) cnt cnt' l h

/-- The loop's result is an increasing list of indices at or beyond the
start row, for any limit. -/
theorem findRowIndicesAux_sorted (t : QTable) (tests : List TestInfo) (limit : Option Int) :
    ∀ (rem k0 cnt : Nat) (l : List Nat),
      findRowIndicesAux t tests limit rem k0 cnt = .ok l →
      (∀ i ∈ l, k0 ≤ i) ∧ l.Pairwise (· < ·) := by
  intro rem
  induction rem with
  | zero =>
    intro k0 cnt l h
    simp only [findRowIndicesAux] at h
    injection h with h
    subst h
    refine ⟨?_, List.Pairwise.nil⟩
    intro i hi
    cases hi
  | succ rem ih =>
    intro k0 cnt l h
    simp only [findRowIndicesAux] at h
    split at h
    · injection h
    · split at h
      · injection h with h
        subst h
        refine ⟨?_, by simp⟩
        intro i hi
        rw [List.mem_singleton] at hi
        omega
      · split at h
        · injection h
        · rename_i rest hrec
          injection h with h
          subst h
          obtain ⟨hge, hpw⟩ := ih (k0 + 1) (cnt + 1) rest hrec
          refine ⟨?_, ?_⟩
          · intro i hi
            rcases List.mem_cons.mp hi with rfl | hi'
            · exact Nat.le_refl _
            · have := hge i hi'
              omega
          · rw [List.pairwise_cons]
            refine ⟨fun y hy => ?_, hpw⟩
            have := hge y hy
            omega
    · obtain ⟨hge, hpw⟩ := ih (k0 + 1) cnt l h
      refine ⟨fun i hi => ?_, hpw⟩
      have := hge i hi
      omega

/-- **C6.** `find_row_index` delegates to `find_row_indices` with
`limit = 1`; it returns exactly the smallest index of the unlimited result,
and raises the row-not-found error carrying the predicate set exactly when
the unlimited result is empty. -/
theorem c6_find_row_index_spec (t : QTable) (params : List (String × PdsValue))
    (substrings : List String) (l : List Nat)
    (hok : findRowIndices t params substrings none = .ok l) :
    (∀ i : Nat, findRowIndex t params substrings = .ok i ↔
      (i ∈ l ∧ ∀ j ∈ l, i ≤ j)) ∧
    (findRowIndex t params substrings = .error (.rowNotFound params) ↔ l = []) := by
  have hlim : findRowIndices t params substrings (some 1) = .ok (l.take 1) :=
    findRowIndicesAux_limit_one t (params.map (mkTestInfo substrings))
      t.nrows 0 0 0 l hok
  have hsort := findRowIndicesAux_sorted t (params.map (mkTestInfo substrings))
      none t.nrows 0 0 l hok
  unfold findRowIndex
  rw [hlim]
  cases l with
  | nil =>
    refine ⟨?_, ?_⟩
    · intro i
      constructor
      · intro hh
        injection hh
      · intro ⟨hmem, _⟩
        cases hmem
    · constructor
      · intro _
        rfl
      · intro _
        rfl
  | cons h0 tl =>
    simp only [List.take_succ_cons, List.take_zero]
    refine ⟨?_, ?_⟩
    · intro i
      constructor
      · intro hh
        injection hh with hh
        subst hh
        refine ⟨List.mem_cons_self _ _, ?_⟩
        intro j hj
        rcases List.mem_cons.mp hj with rfl | hj'
        · exact Nat.le_refl _
        · have := (List.pairwise_cons.mp hsort.2).1 j hj'
          omega
      · intro ⟨hmem, hmin⟩
        have h1 : i ≤ h0 := hmin h0 (List.mem_cons_self _ _)
        have h2 : h0 ≤ i := by
          rcases List.mem_cons.mp hmem with rfl | hi'
          · exact Nat.le_refl _
          · have := (List.pairwise_cons.mp hsort.2).1 i hi'
            omega
        have : h0 = i := by omega
        rw [this]
    · constructor
      · intro hh
        injection hh
      · intro hh
        cases hh

/-- **C6 witness.** On the spec's table, `find_row_index(N=16)` returns 3,
the smallest (and only) index in `find_row_indices(N=16) = [3]`. -/
theorem c6_witness :
    (∀ i : Nat, findRowIndex nTable [("N", PdsValue.int 16)] [] = .ok i ↔
      (i ∈ [3] ∧ ∀ j ∈ [3], i ≤ j)) ∧
    (findRowIndex nTable [("N", PdsValue.int 16)] [] =
      .error (.rowNotFound [("N", PdsValue.int 16)]) ↔ ([3] : List Nat) = []) :=
  c6_find_row_index_spec nTable [("N", PdsValue.int 16)] [] [3] (by rfl)

/-- A falsy limit (`None` or `0`) never triggers the early return. -/
theorem findRowIndicesAux_falsy_limit (t : QTable) (tests : List TestInfo)
    (limit : Option Int) (hf : pyTruthyLimit limit = false) :
    ∀ (rem k0 cnt : Nat),
      findRowIndicesAux t tests limit rem k0 cnt =
        findRowIndicesAux t tests none rem k0 cnt := by
  intro rem
  induction rem with
  | zero => intro k0 cnt; rfl
  | succ rem ih =>
    intro k0 cnt
    have hcond : (pyTruthyLimit limit &&
        decide ((limit.getD 0) ≤ ((cnt : Int) + 1))) = false := by
      rw [hf]
      rfl
    have hcond2 : (pyTruthyLimit none &&
        decide (((none : Option Int).getD 0) ≤ ((cnt : Int) + 1))) = false := rfl
    simp only [findRowIndicesAux, hcond, hcond2, Bool.false_eq_true, if_false]
    cases hr : rowMatch t tests k0 with
    | error e => rfl
    | ok b =>
      cases b with
      | true => rw [ih (k0 + 1) (cnt + 1)]
      | false => exact ih (k0 + 1) cnt

/-- **C10.** `find_row_indices` with `limit = 0` returns the full list of
matching indices, exactly as with `limit = None`: the cutoff test uses the
truthiness of `limit`, and `0` is falsy. -/
theorem c10_limit_zero_is_no_limit (t : QTable) (params : List (String × PdsValue))
    (substrings : List String) :
    findRowIndices t params substrings (some 0) =
      findRowIndices t params substrings none := by
  unfold findRowIndices
  exact findRowIndicesAux_falsy_limit t (params.map (mkTestInfo substrings))
    (some 0) (by rfl) t.nrows 0 0

/-! ## C7: logical-type resolution (`PdsColumnInfo` / `Pds4ColumnInfo`) -/

/-- The logical types a column schema can resolve to. -/
inductive LogicalType where
  | tInt
  | tFloat
  | tTime
  | tString
  | tBool
  deriving DecidableEq, Repr

/-- PDS3 type resolution (`PdsColumnInfo.__init__`, lines 1132-1151): the
`INTEGER` and `REAL` tag tests come before the time branch, so the
`_TIME`/`_DATE` naming override is reached only for other tags.  (The
unsupported-type branch interpolates the undefined local `data_type`,
hence a `NameError`.) -/
def pds3ResolveType (dataType colName : String) : Except PyError LogicalType :=
  if strContainsSub dataType "INTEGER" then .ok .tInt
  else if strContainsSub dataType "REAL" then .ok .tFloat
  else if strContainsSub dataType "TIME" || strContainsSub dataType "DATE"
      || strEndsWith colName "_TIME" || strEndsWith colName "_DATE" then .ok .tTime
  else if strContainsSub dataType "CHAR" then .ok .tString
  else .error (.nameError "data_type")

/-- The PDS4 character data-type mapping (`PDS4_CHR_DATA_TYPE_MAPPING`),
restricted to its logical-type component. -/
def pds4ChrDataTypes : List (String × LogicalType) :=
  [("ASCII_Date_DOY", .tTime), ("ASCII_Date_Time_DOY", .tTime),
   ("ASCII_Date_Time_DOY_UTC", .tTime), ("ASCII_Date_Time_YMD", .tTime),
   ("ASCII_Date_Time_YMD_UTC", .tTime), ("ASCII_Date_YMD", .tTime),
   ("ASCII_Time", .tTime), ("ASCII_Integer", .tInt),
   ("ASCII_NonNegative_Integer", .tInt), ("ASCII_Real", .tFloat),
   ("ASCII_AnyURI", .tString), ("ASCII_Directory_Path_Name", .tString),
   ("ASCII_DOI", .tString), ("ASCII_File_Name", .tString),
   ("ASCII_File_Specification_Name", .tString), ("ASCII_LID", .tString),
   ("ASCII_LIDVID", .tString), ("ASCII_LIDVID_LID", .tString),
   ("ASCII_MD5_Checksum", .tString), ("ASCII_String", .tString),
   ("ASCII_VID", .tString), ("UTF8_String", .tString),
   ("ASCII_Boolean", .tBool), ("ASCII_Numeric_Base2", .tInt),
   ("ASCII_Numeric_Base8", .tInt), ("ASCII_Numeric_Base16", .tInt)]

/-- PDS4 type resolution (`Pds4ColumnInfo.__init__`, lines 296-310): the
mapping applies first (unsupported tags error), then the `_TIME`/`_DATE`
naming override applies unconditionally. -/
def pds4ResolveType (dataType colName : String) : Except PyError LogicalType :=
  match (pds4ChrDataTypes.find? (fun p => p.1 == dataType)).map (fun p => p.2) with
  | none => .error (.valueError ("unsupported data type: " ++ dataType))
  | some t =>
    .ok (if strEndsWith colName "_TIME" || strEndsWith colName "_DATE" then .tTime
         else t)

/-- **C7 counterexample.** A column named `FOO_TIME` declared
`ASCII_INTEGER` resolves to Integer on the PDS3 path — the `_TIME` naming
override loses to the `INTEGER` tag test, which comes first — while the
PDS4 path does resolve the same name to Time even for an integer tag. -/
theorem c7_counterexample :
    pds3ResolveType "ASCII_INTEGER" "FOO_TIME" = .ok .tInt ∧
    strEndsWith "FOO_TIME" "_TIME" = true ∧
    LogicalType.tInt ≠ LogicalType.tTime ∧
    pds4ResolveType "ASCII_Integer" "FOO_TIME" = .ok .tTime := by
  exact ⟨by rfl, by rfl, by decide, by rfl⟩

/-- **C7 (amended).** For a column whose name ends in `_TIME` or `_DATE`:
on the PDS4 path the resolved logical type is Time regardless of the
declared tag; on the PDS3 path it is Time only when the declared tag
contains neither `INTEGER` nor `REAL` (those two tests come first). -/
theorem c7_time_suffix_override (dataType colName : String)
    (hsuffix : strEndsWith colName "_TIME" = true ∨
      strEndsWith colName "_DATE" = true) :
    (∀ tp, pds4ResolveType dataType colName = .ok tp → tp = .tTime) ∧
    (strContainsSub dataType "INTEGER" = false →
      strContainsSub dataType "REAL" = false →
      pds3ResolveType dataType colName = .ok .tTime) := by
  constructor
  · intro tp h
    unfold pds4ResolveType at h
    split at h
    · injection h
    · injection h with h
      subst h
      rcases hsuffix with hs | hs
      · simp [hs]
      · simp [hs]
  · intro h1 h2
    unfold pds3ResolveType
    simp only [h1, h2, Bool.false_eq_true, if_false]
    rcases hsuffix with hs | hs
    · simp [hs]
    · simp [hs]

/-- **C7 witness.** A `CHARACTER`-tagged column named `FOO_TIME`: both
paths resolve it to Time. -/
theorem c7_witness :
    (∀ tp, pds4ResolveType "CHARACTER" "FOO_TIME" = .ok tp → tp = .tTime) ∧
    (strContainsSub "CHARACTER" "INTEGER" = false →
      strContainsSub "CHARACTER" "REAL" = false →
      pds3ResolveType "CHARACTER" "FOO_TIME" = .ok .tTime) :=
  c7_time_suffix_override "CHARACTER" "FOO_TIME" (Or.inl (by rfl))

/-! ## C8: the volume/file-specification resolver -/

/-- `FILE_SPECIFICATION_COLUMN_NAMES`, lower-cased (lines 78-90). -/
def fileSpecColumnNamesLc : List String :=
  ["file_specification_name", "file specification name", "file_name",
   "file name", "filename", "product_id", "product id", "stsci_group_id"]

/-- `VOLUME_ID_COLUMN_NAMES`, lower-cased (lines 92-99). -/
def volumeIdColumnNamesLc : List String :=
  ["volume_id", "volume id", "volume_name", "volume name"]

/-- `volume_column_index` (lines 708-724): the first synonym present among
the lower-cased selected column names; when none is found the sentinel
stored in `self._volume_colname_lc` is the empty string, not `None`. -/
def volumeColnameLc (keysLc : List String) : String :=
  (volumeIdColumnNamesLc.find? (fun g => keysLc.contains g)).getD ""

/-- `filespec_column_index` (lines 726-743): `self._filespec_colname_lc`
remains `None` when no synonym matches (the not-found branch assigns
attributes without the leading underscore). -/
def filespecColnameLc (keysLc : List String) : Option String :=
  fileSpecColumnNamesLc.find? (fun g => keysLc.contains g)

/-- Python `s.split(sep)` for a single-character separator. -/
def splitOnChar (sep : Char) : List Char → List (List Char)
  | [] => [[]]
  | c :: rest =>
    let parts := splitOnChar sep rest
    if c == sep then [] :: parts
    else
      match parts with
      | [] => [[c]]
      | p :: ps => (c :: p) :: ps

/-- `os.path.basename` for POSIX paths. -/
def pyBasename (s : String) : String :=
  String.mk ((splitOnChar '/' s.data).getLast?.getD [])

/-- Index of the last `.` in a component, if any. -/
def lastDotIndex (l : List Char) : Option Nat :=
  match l.reverse.findIdx? (fun c => c == '.') with
  | none => none
  | some i => some (l.length - 1 - i)

/-- `os.path.splitext` (POSIX): split at the last dot of the last path
component, unless only dots precede it within that component. -/
def pySplitExt (s : String) : String × String :=
  let l := s.data
  let base := (splitOnChar '/' l).getLast?.getD []
  let dirLen := l.length - base.length
  match lastDotIndex base with
  | none => (s, "")
  | some d =>
    if (base.take d).all (fun c => c == '.') then (s, "")
    else (String.mk (l.take (dirLen + d)), String.mk (base.drop d))

/-- Lines 790-792: rewrite `a/b/c.ext` into the bracketed-directory
notation `[a.b]c.ext`. -/
def vmsRewrite (fs : String) : String :=
  let parts := splitOnChar '/' fs.data
  String.mk ('[' :: (List.intercalate ['.'] parts.dropLast ++
    (']' :: (parts.getLast?.getD []))))

/-- `find_row_indices_by_volume_filespec` (lines 745-820), over the
lower-cased dictionary world: the `QTable`'s column names are the
lower-cased selected names and hold the stored (original-case) values.

Line 778 guards with `self._volume_colname is None`, but
`volume_column_index` leaves the sentinel `''` when no volume column
exists, so the guard never fires and the volume predicate key becomes
`'' + '_lower' = '_lower'`, which is truthy. -/
def findRowIndicesByVolumeFilespec (t : QTable) (volumeArg : String)
    (filespecArg : Option String) (limit : Option Int) (substring : Bool) :
    Except PyError (List Nat) :=
  let volume_id := match filespecArg with | none => "" | some _ => volumeArg
  let filespec0 := filespecArg.getD volumeArg
  match filespecColnameLc (t.cols.map (fun c => c.name)) with
  | none => .error (.valueError "FILE SPECIFICATION NAME column not found")
  | some fsCol =>
    match getCol t fsCol with
    | none => .error (.keyError fsCol)
    | some col =>
      match col.values[0]? with
      | none => .error (.indexError "list index out of range")
      | some exItems =>
        match exItems.head?.getD (PdsValue.str "") with
        | .int _ => .error (.typeError "argument of type int is not iterable")
        | .str ex =>
          let fs1 :=
            if strContainsSub ex "[" then vmsRewrite filespec0
            else if strContainsSub ex "/" = false then pyBasename filespec0
            else filespec0
          let root := (pySplitExt fs1).1
          let fs2 := if substring then root else root ++ (pySplitExt ex).2
          let vol := pyLower volume_id
          let fsv := pyLower fs2
          let substrings := if substring then [fsCol ++ "_lower"] else []
          let volKey := volumeColnameLc (t.cols.map (fun c => c.name)) ++ "_lower"
          if volKey != "" && vol != "" then
            findRowIndices t [(fsCol ++ "_lower", .str fsv), (volKey, .str vol)]
              substrings limit
          else
            findRowIndices t [(fsCol ++ "_lower", .str fsv)] substrings limit

/-- A one-row table with a file-name column (lower-cased world) and no
volume-ID column. -/
def c8Table : QTable :=
  ⟨[⟨"file_name", [[.str "foo.tab"]], [[false]]⟩], 1⟩

/-- **C8.** On a table without a recognized volume-ID column, supplying a
non-empty volume ID does *not* fall back to a filespec-only search: the
bogus predicate key `'_lower'` is included ( `'' + '_lower'` is truthy),
and the search dies with `KeyError('_mask')` as soon as a row passes the
filespec test — whereas the filespec-only search returns that row. -/
theorem c8_missing_volume_column_keyerror :
    findRowIndicesByVolumeFilespec c8Table "vol_001" (some "foo.tab") none false =
      .error (.keyError "_mask") ∧
    findRowIndicesByVolumeFilespec c8Table "foo.tab" none none false = .ok [0] ∧
    volumeColnameLc (c8Table.cols.map (fun c => c.name)) = "" := by
  exact ⟨by rfl, by rfl, by rfl⟩

/-! ## C9: row dictionaries and space-named columns -/

/-- A row-dictionary entry: a column value or a mask bit. -/
inductive DictEntry where
  | val (v : PdsValue)
  | mask (b : Bool)
  deriving DecidableEq, Repr

/-- The decoded-table state `dicts_by_row` reads: `column_values` and
`column_masks`, both keyed by the declared column names (scalar columns). -/
structure Table9 where
  colValues : List (String × List PdsValue)
  colMasks : List (String × List Bool)
  rows : Nat
  deriving DecidableEq, Repr

/-- Python dictionary lookup on an association list. -/
def assocGet (m : List (String × α)) (k : String) : Option α :=
  (m.find? (fun p => p.1 == k)).map (fun p => p.2)

/-- Line 529: `set([column_name, column_name.replace(' ', '_')])`.  (The
Python set's iteration order is arbitrary; both orders raise the same
exception below, so a fixed order is used.) -/
def rowEntryKeys (colName : String) : List String :=
  if replaceSpaces colName == colName then [colName]
  else [colName, replaceSpaces colName]

/-- Lines 530-535: for each key variant, store the row's value under the
key and the mask under `key + "_mask"` — the mask being looked up in
`column_masks` under the *variant* key (`self.column_masks[key][row]`). -/
def rowEntriesForKeys (t : Table9) (row : Nat) (v : PdsValue) :
    List String → Except PyError (List (String × DictEntry))
  | [] => .ok []
  | key :: rest =>
    match assocGet t.colMasks key with
    | none => .error (.keyError key)
    | some ms =>
      match ms[row]? with
      | none => .error (.indexError "list index out of range")
      | some m =>
        match rowEntriesForKeys t row v rest with
        | .error e => .error e
        | .ok es => .ok ((key, .val v) :: (key ++ "_mask", .mask m) :: es)

/-- Lines 527-535: the per-row loop over `column_values.items()`. -/
def buildRowDictCols (t : Table9) (row : Nat) :
    List (String × List PdsValue) → Except PyError (List (String × DictEntry))
  | [] => .ok []
  | (colName, items) :: rest =>
    match items[row]? with
    | none => .error (.indexError "list index out of range")
    | some v =>
      match rowEntriesForKeys t row v (rowEntryKeys colName) with
      | .error e => .error e
      | .ok es =>
        match buildRowDictCols t row rest with
        | .error e => .error e
        | .ok es2 => .ok (es ++ es2)

/-- `dicts_by_row` (lines 499-556), restricted to the value and mask
entries (`lowercase=(False,False)`). -/
def dictsByRow9 (t : Table9) : Except PyError (List (List (String × DictEntry))) :=
  mapExcept (fun row => buildRowDictCols t row t.colValues) (List.range t.rows)

/-- A one-column table whose column name contains a space. -/
def c9Table : Table9 :=
  ⟨[("A B", [PdsValue.str "x"])], [("A B", [false])], 1⟩

/-- The same table with an underscore in the column name instead. -/
def c9TableU : Table9 :=
  ⟨[("A_B", [PdsValue.str "x"])], [("A_B", [false])], 1⟩

/-- **C9.** For a column whose declared name contains a space,
`dicts_by_row` raises `KeyError` on the underscored alias: the mask is
looked up in `column_masks` under the alias key, which only holds the
declared names.  With an underscore-only name the machinery works and
produces the value and paired mask entries. -/
theorem c9_space_name_keyerror :
    dictsByRow9 c9Table = .error (.keyError "A_B") ∧
    dictsByRow9 c9TableU =
      .ok [[("A_B", .val (.str "x")), ("A_B_mask", .mask false)]] := by
  exact ⟨by rfl, by rfl⟩

end PdsTableModel
